import Mathlib

set_option maxRecDepth 4000

namespace SATID

/-! Shallow embedding of the SATID support-level detection and constrained
optimization engine (source: `generate_Fbis_Levels_Interactive.py`) and of the
risk scoring layer (source: `SATID_core_calculations.py`).  Weekly price data
is modelled with exact rational arithmetic; dates are day numbers (`ℤ`), so a
pandas `DateOffset(weeks = 12)` is `+ 84` days.  `numpy.arange` and Python
`range` are modelled with exact rational / natural arithmetic.  The square-root
based risk scoring layer is modelled over the real numbers. -/

/-- Scoring constant `SUPPORT_TEST_REWARD = 1.0`. -/
def SUPPORT_TEST_REWARD : ℚ := 1

/-- Scoring constant `BREACH_PENALTY = 3.0`. -/
def BREACH_PENALTY : ℚ := 3

/-- Scoring constant `TOUCH_TOLERANCE_PCT = 2.5`. -/
def TOUCH_TOLERANCE_PCT : ℚ := 5 / 2

/-- A weekly price series: a list of (date, value) samples, dates ascending in
well-formed data.  Each of close / high / low is one such series. -/
abbrev Series := List (ℤ × ℚ)

/-- Python `range(start, stop, step)` over naturals (`step > 0`). -/
def pyRange (start stop step : ℕ) : List ℕ :=
  (List.range ((stop - start + step - 1) / step)).map (fun i => start + i * step)

/-- Exact-rational model of `numpy.arange(start, stop, step)` for `step > 0`:
`⌈(stop - start) / step⌉` points `start + i·step`. -/
def arangeQ (start stop step : ℚ) : List ℚ :=
  (List.range (⌈(stop - start) / step⌉.toNat)).map (fun i : ℕ => start + (i : ℚ) * step)

/-- An asset-class profile: the constrained candidate EMA periods and vertical
shifts (`CONSTRAINTS[class]` entries `ema_range` / `shift_range`). -/
structure Profile where
  ema_range : List ℕ
  shift_range : List ℚ
deriving DecidableEq

/-- CONSTRAINTS entry for `large_cap`: `range(18, 25, 2)`,
`np.arange(-0.06, -0.015, 0.005)`. -/
def largeCapProfile : Profile := ⟨pyRange 18 25 2, arangeQ (-6 / 100) (-15 / 1000) (5 / 1000)⟩

/-- CONSTRAINTS entry for `growth_tech`. -/
def growthTechProfile : Profile := ⟨pyRange 18 25 2, arangeQ (-7 / 100) (-15 / 1000) (5 / 1000)⟩

/-- CONSTRAINTS entry for `bond_hy`. -/
def bondHyProfile : Profile := ⟨pyRange 16 21 2, arangeQ (-3 / 100) (5 / 1000) (5 / 1000)⟩

/-- CONSTRAINTS entry for `bond_ig`. -/
def bondIgProfile : Profile := ⟨pyRange 16 21 2, arangeQ (-2 / 100) (5 / 1000) (5 / 1000)⟩

/-- CONSTRAINTS entry for `sector`. -/
def sectorProfile : Profile := ⟨pyRange 18 27 2, arangeQ (-8 / 100) (-15 / 1000) (5 / 1000)⟩

/-- CONSTRAINTS entry for `emerging`. -/
def emergingProfile : Profile := ⟨pyRange 18 25 2, arangeQ (-10 / 100) (-25 / 1000) (5 / 1000)⟩

/-- CONSTRAINTS entry for `thematic`. -/
def thematicProfile : Profile := ⟨pyRange 20 29 2, arangeQ (-12 / 100) (-25 / 1000) (5 / 1000)⟩

/-- The static `ASSET_CLASSES` dict mapping each ticker to its class name. -/
def ASSET_CLASSES : List (String × String) :=
  [("SPY", "large_cap"), ("VGK", "large_cap"), ("EWG", "large_cap"),
   ("EWQ", "large_cap"), ("EWI", "large_cap"), ("EWJ", "large_cap"),
   ("QQQ", "growth_tech"), ("XLK", "growth_tech"), ("XLY", "growth_tech"),
   ("HYS", "bond_hy"), ("EMB", "bond_hy"), ("CEMB", "bond_hy"),
   ("BIL", "bond_ig"), ("IGSB", "bond_ig"), ("IGIB", "bond_ig"), ("LQD", "bond_ig"),
   ("XLV", "sector"), ("XLI", "sector"), ("XLC", "sector"), ("SMH", "sector"),
   ("HEAL", "sector"), ("PPA", "sector"), ("PAVE", "sector"),
   ("EWZ", "emerging"), ("INDA", "emerging"), ("MCHI", "emerging"),
   ("ARKF", "thematic"), ("AIQ", "thematic"), ("EBIZ", "thematic"),
   ("BKCH", "thematic"), ("QTUM", "thematic"), ("ARKX", "thematic"),
   ("ESPO", "thematic"), ("GLD", "thematic"), ("FTLS", "thematic"),
   ("QAI", "thematic"), ("WTMF", "thematic")]

/-- The `CONSTRAINTS` dict mapping each class name to its profile. -/
def CONSTRAINTS : List (String × Profile) :=
  [("large_cap", largeCapProfile), ("growth_tech", growthTechProfile),
   ("bond_hy", bondHyProfile), ("bond_ig", bondIgProfile),
   ("sector", sectorProfile), ("emerging", emergingProfile),
   ("thematic", thematicProfile)]

/-- Constructor line `self.asset_class = ASSET_CLASSES.get(ticker, 'large_cap')`. -/
def assetClassOf (ticker : String) : String :=
  (ASSET_CLASSES.lookup ticker).getD "large_cap"

/-- Constructor line
`self.constraints = CONSTRAINTS.get(self.asset_class, CONSTRAINTS['large_cap'])`. -/
def constraintsOfClass (assetClass : String) : Profile :=
  (CONSTRAINTS.lookup assetClass).getD largeCapProfile

/-- Source `find_swing_highs(high_series, window)`: for each index `i` with
`window ≤ i` and `i + window < len`, emit the bar when its high equals the
maximum of the symmetric window `[i-window, i+window]`. -/
def find_swing_highs (high_series : Series) (window : ℕ) : Series :=
  (List.range high_series.length).filterMap fun i =>
    if window ≤ i ∧ i + window < high_series.length then
      let pt := high_series.getD i (0, 0)
      let localWindow := ((high_series.drop (i - window)).take (2 * window + 1)).map Prod.snd
      if localWindow.all fun v => decide (v ≤ pt.2) then some pt else none
    else none

/-- Source `find_swing_lows(low_series, window)` (local minima, same shape). -/
def find_swing_lows (low_series : Series) (window : ℕ) : Series :=
  (List.range low_series.length).filterMap fun i =>
    if window ≤ i ∧ i + window < low_series.length then
      let pt := low_series.getD i (0, 0)
      let localWindow := ((low_series.drop (i - window)).take (2 * window + 1)).map Prod.snd
      if localWindow.all fun v => decide (pt.2 ≤ v) then some pt else none
    else none

/-- Helper for `idxmin`: scan keeping the first sample with minimal value. -/
def idxminGo (best : ℤ × ℚ) : Series → ℤ
  | [] => best.1
  | p :: rest => if p.2 < best.2 then idxminGo p rest else idxminGo best rest

/-- Pandas `Series.idxmin()`: the date of the first occurrence of the minimal
value (junk `0` on an empty series, where pandas raises). -/
def idxmin : Series → ℤ
  | [] => 0
  | p :: rest => idxminGo p rest

/-- Inner loop of `identify_lower_highs`: starting from a swing high, greedily
extend with strictly lower highs, stopping at the first non-decrease. -/
def lowerRunFrom : (ℤ × ℚ) → Series → Series
  | cur, [] => [cur]
  | cur, p :: rest => if p.2 < cur.2 then cur :: lowerRunFrom p rest else [cur]

/-- All runs produced by `identify_lower_highs`'s outer loop
(`for start_idx in range(len(swing_highs) - 1)`). -/
def lowerRuns : Series → List Series
  | [] => []
  | [_] => []
  | p :: rest => lowerRunFrom p rest :: lowerRuns rest

/-- Python `max(sequences, key=len)`: first list of maximal length. -/
def maxByLen (sequences : List Series) : Series :=
  match sequences with
  | [] => []
  | s :: rest => rest.foldl (fun acc r => if acc.length < r.length then r else acc) s

/-- Source `identify_lower_highs(swing_highs, min_highs=2)`. -/
def identify_lower_highs (swing_highs : Series) (min_highs : ℕ) : Series :=
  if swing_highs.length < min_highs then []
  else maxByLen ((lowerRuns swing_highs).filter fun s => decide (min_highs ≤ s.length))

/-- A fitted downtrend resistance line (`create_downtrend_line` result): slope
and intercept of the least-squares regression of anchor prices on days since
the first anchor, plus the squared correlation. -/
structure DowntrendLine where
  slope : ℚ
  intercept : ℚ
  r_squared : ℚ
  first_date : ℤ
deriving DecidableEq

/-- Source `create_downtrend_line(lower_highs)`: `scipy.stats.linregress` of
prices against days-since-first-anchor (`slope = Sxy/Sxx`,
`intercept = ȳ - slope·x̄`, `r² = Sxy²/(Sxx·Syy)`). -/
def create_downtrend_line (lower_highs : Series) : Option DowntrendLine :=
  if lower_highs.length < 2 then none
  else
    let fd := (lower_highs.headD (0, 0)).1
    let xs : List ℚ := lower_highs.map fun h => ((h.1 - fd : ℤ) : ℚ)
    let ys : List ℚ := lower_highs.map Prod.snd
    let n : ℚ := (xs.length : ℚ)
    let xm := xs.sum / n
    let ym := ys.sum / n
    let sxx := (xs.map fun x => (x - xm) ^ 2).sum
    let syy := (ys.map fun y => (y - ym) ^ 2).sum
    let sxy := ((xs.zip ys).map fun p => (p.1 - xm) * (p.2 - ym)).sum
    let slope := sxy / sxx
    some ⟨slope, ym - slope * xm, sxy ^ 2 / (sxx * syy), fd⟩

/-- Resistance value of a downtrend line at a date
(`slope * (date - first_date).days + intercept`). -/
def resistanceAt (dl : DowntrendLine) (date : ℤ) : ℚ :=
  dl.slope * ((date - dl.first_date : ℤ) : ℚ) + dl.intercept

/-- Source `detect_breakout(close_series, downtrend_line, start_after_date)`:
the first bar strictly after `start_after_date` whose close exceeds the
resistance line at that date. -/
def detect_breakout (close_series : Series) (dl : DowntrendLine)
    (start_after_date : ℤ) : Option (ℤ × ℚ) :=
  (close_series.filter fun p => decide (start_after_date < p.1)).find?
    fun p => decide (resistanceAt dl p.1 < p.2)

/-- Minimum value of a series (pandas `.min()`; junk `0` on empty input). -/
def seriesMin : Series → ℚ
  | [] => 0
  | p :: rest => rest.foldl (fun acc q => min acc q.2) p.2

/-- Source `confirm_higher_low(low_series, breakout_info, pre_breakout_low,
weeks_to_wait=12)`: within 84 days after the breakout, confirm when the lowest
low exceeds the pre-breakout swing low, returning the pullback low's date. -/
def confirm_higher_low (low_series : Series) (breakout : ℤ × ℚ)
    (pre_breakout_low_price : ℚ) : Option ℤ :=
  let confirmationWindow := low_series.filter fun p =>
    decide (breakout.1 < p.1 ∧ p.1 ≤ breakout.1 + 84)
  if confirmationWindow.isEmpty then none
  else if pre_breakout_low_price < seriesMin confirmationWindow then
    some (idxmin confirmationWindow)
  else none

/-- Detection metadata returned beside the trend-start date: the Python dicts
`{}`, `{'breakout': …}` and `{'breakout': …, 'confirmation': …}`. -/
inductive DetectionInfo where
  | noInfo : DetectionInfo
  | breakoutOnly (breakoutDate : ℤ) (breakoutPrice : ℚ) : DetectionInfo
  | confirmed (breakoutDate : ℤ) (breakoutPrice : ℚ) (confirmationDate : ℤ) : DetectionInfo
deriving DecidableEq

/-- Source `detect_trend_change(close_series, high_series, low_series)`:
returns `(trend_start_date, detection_info)`. -/
def detect_trend_change (close_series high_series low_series : Series) :
    ℤ × DetectionInfo :=
  let swing_highs := find_swing_highs high_series 4
  if swing_highs.length < 2 then (idxmin close_series, .noInfo)
  else
    let lower_highs := identify_lower_highs swing_highs 2
    if lower_highs.length < 2 then (idxmin close_series, .noInfo)
    else
      match create_downtrend_line lower_highs with
      | none => (idxmin close_series, .noInfo)
      | some dl =>
        match detect_breakout close_series dl (lower_highs.getLastD (0, 0)).1 with
        | none => (idxmin close_series, .noInfo)
        | some breakout =>
          let swing_lows := find_swing_lows low_series 4
          let pre_breakout_lows := swing_lows.filter fun l => decide (l.1 < breakout.1)
          if pre_breakout_lows.isEmpty then (breakout.1, .breakoutOnly breakout.1 breakout.2)
          else
            match confirm_higher_low low_series breakout
                (pre_breakout_lows.getLastD (0, 0)).2 with
            | some confirmationDate =>
                (confirmationDate, .confirmed breakout.1 breakout.2 confirmationDate)
            | none => (breakout.1, .breakoutOnly breakout.1 breakout.2)

/-- Recurrence core of the EMA: emit the accumulator, then fold
`ema[i] = price[i]·k + ema[i-1]·(1-k)`. -/
def emaGo {α : Type} [DivisionRing α] (k acc : α) : List α → List α
  | [] => [acc]
  | p :: rest => acc :: emaGo k (p * k + acc * (1 - k)) rest

/-- Source `calculate_ema(prices, period)` (also
`close.ewm(span=period, adjust=False).mean()` in the optimizer): `ema[0] =
prices[0]`, `k = 2/(period+1)`, `ema[i] = prices[i]·k + ema[i-1]·(1-k)`. -/
def calculate_ema {α : Type} [DivisionRing α] (prices : List α) (period : ℕ) : List α :=
  match prices with
  | [] => []
  | p :: rest => emaGo (2 / ((period : α) + 1)) p rest

/-- Restriction of a positionally-aligned list by a boolean mask
(pandas boolean-mask indexing `series[opt_mask]`). -/
def maskFilter {α : Type} : List Bool → List α → List α
  | [], _ => []
  | _, [] => []
  | b :: ms, x :: xs => if b then x :: maskFilter ms xs else maskFilter ms xs

/-- Optimization-window mask `opt_mask = self.close.index >= self.trend_start`. -/
def optMask (close_series : Series) (trend_start : ℤ) : List Bool :=
  close_series.map fun p => decide (trend_start ≤ p.1)

/-- Trend start resolved in the optimizer's constructor. -/
def trendStartOf (close_series high_series low_series : Series) : ℤ :=
  (detect_trend_change close_series high_series low_series).1

/-- The closes inside the evaluation window (`opt_close = self.close[opt_mask]`). -/
def windowCloses (close_series high_series low_series : Series) : List ℚ :=
  maskFilter (optMask close_series (trendStartOf close_series high_series low_series))
    (close_series.map Prod.snd)

/-- Per-bar classification in `ConstrainedFbisOptimizer.optimize`: the
`(support-test, breach)` count increments contributed by one bar.
`distance_pct = (low - fbis)/fbis·100`; a support test needs the low within
`±TOUCH_TOLERANCE_PCT` and the close at or above the level; otherwise a breach
needs the close strictly below the level. -/
def barCounts (fbis_level low_price close_price : ℚ) : ℕ × ℕ :=
  if -TOUCH_TOLERANCE_PCT ≤ (low_price - fbis_level) / fbis_level * 100 ∧
      (low_price - fbis_level) / fbis_level * 100 ≤ TOUCH_TOLERANCE_PCT then
    if fbis_level ≤ close_price then (1, 0) else (0, 0)
  else if close_price < fbis_level then (0, 1) else (0, 0)

/-- Accumulation of one bar's `(support_tests, breaches)` increments. -/
def scoreStep (acc : ℕ × ℕ) (t : ℚ × ℚ × ℚ) : ℕ × ℕ :=
  (acc.1 + (barCounts t.1 t.2.1 t.2.2).1, acc.2 + (barCounts t.1 t.2.1 t.2.2).2)

/-- The `for i in range(len(opt_close))` loop: total `(support_tests, breaches)`
over the window, bar by bar (`t = (fbis_level, low_price, close_price)`). -/
def scoreWindow (fbis_line opt_low opt_close : List ℚ) : ℕ × ℕ :=
  (fbis_line.zip (opt_low.zip opt_close)).foldl scoreStep (0, 0)

/-- Support line of a candidate: the full-series EMA restricted to the window,
then shifted (`ema = ema_full[opt_mask]; fbis_line = ema * (1 + shift)`). -/
def fbisLine (closes : List ℚ) (mask : List Bool) (period : ℕ) (shift : ℚ) : List ℚ :=
  (maskFilter mask (calculate_ema closes period)).map fun e => e * (1 + shift)

/-- Evaluation of one `(period, shift)` candidate: its
`(support_tests, breaches)` over the window. -/
def candidateEval (closes lows : List ℚ) (mask : List Bool) (c : ℕ × ℚ) : ℕ × ℕ :=
  scoreWindow (fbisLine closes mask c.1 c.2) (maskFilter mask lows) (maskFilter mask closes)

/-- Source scoring line
`score = support_tests * SUPPORT_TEST_REWARD - breaches * BREACH_PENALTY`. -/
def scorePoints (tests breaches : ℕ) : ℚ :=
  (tests : ℚ) * SUPPORT_TEST_REWARD - (breaches : ℚ) * BREACH_PENALTY

/-- Score of one candidate on the evaluation window. -/
def candScore (closes lows : List ℚ) (mask : List Bool) (c : ℕ × ℚ) : ℚ :=
  scorePoints (candidateEval closes lows mask c).1 (candidateEval closes lows mask c).2

/-- The candidate grid of a profile in loop order: periods ascending in the
outer loop, shifts ascending in the inner loop. -/
def gridCandidates (p : Profile) : List (ℕ × ℚ) :=
  p.ema_range.flatMap fun period => p.shift_range.map fun shift => (period, shift)

/-- Grid searched for a ticker (its asset class profile's candidates). -/
def optGrid (ticker : String) : List (ℕ × ℚ) :=
  gridCandidates (constraintsOfClass (assetClassOf ticker))

/-- Score of a candidate for an optimization run over the given series. -/
def optCandScore (close_series high_series low_series : Series)
    (c : ℕ × ℚ) : ℚ :=
  candScore (close_series.map Prod.snd) (low_series.map Prod.snd)
    (optMask close_series (trendStartOf close_series high_series low_series)) c

/-- The best-tracking loop: fold over candidates, replacing the incumbent
exactly when `score > best_score` (initial `best = None`,
`best_score = -999999`). -/
def pickBest {α : Type} (f : α → ℚ) : List α → Option α × ℚ → Option α × ℚ
  | [], acc => acc
  | c :: cs, acc => pickBest f cs (if acc.2 < f c then (some c, f c) else acc)

/-- Result dict of `ConstrainedFbisOptimizer.optimize` (the default-result dicts
carry no `asset_class` key, modelled by `asset_class = none`). -/
structure OptResult where
  period : ℕ
  shift : ℚ
  tests : ℕ
  breaches : ℕ
  score : ℚ
  trend_start : ℤ
  asset_class : Option String
deriving DecidableEq

/-- The fixed default result
`{'period': 20, 'shift': -0.05, 'tests': 0, 'breaches': 0, 'score': 0, 'trend_start': …}`. -/
def defaultOptResult (trend_start : ℤ) : OptResult :=
  ⟨20, -5 / 100, 0, 0, 0, trend_start, none⟩

/-- Source `ConstrainedFbisOptimizer.optimize(self)`: return the fixed default
when the window holds fewer than 10 bars, otherwise grid-search the asset
class's candidates and return the best (first strict improvement wins). -/
def optimize (ticker : String) (close_series high_series low_series : Series) : OptResult :=
  let trend_start := trendStartOf close_series high_series low_series
  if (windowCloses close_series high_series low_series).length < 10 then
    defaultOptResult trend_start
  else
    match pickBest (optCandScore close_series high_series low_series)
        (optGrid ticker) (none, -999999) with
    | (some c, s) =>
        let tb := candidateEval (close_series.map Prod.snd) (low_series.map Prod.snd)
          (optMask close_series trend_start) c
        ⟨c.1, c.2, tb.1, tb.2, s, trend_start, some (assetClassOf ticker)⟩
    | (none, _) => defaultOptResult trend_start

/-- A persisted parameter record entry `{'period': …, 'shift': …}`. -/
structure ParamEntry where
  period : ℕ
  shift : ℚ
deriving DecidableEq

/-- Per-ticker body of the batch runner `optimize_all_etfs`: missing columns or
fewer than 52 close bars record the fixed default `{period: 20, shift: -0.05}`
and the batch continues; otherwise the optimizer runs. -/
def optimize_all_etfs_step (hasColumns : Bool) (ticker : String)
    (close_series high_series low_series : Series) : ParamEntry :=
  if hasColumns = false then ⟨20, -5 / 100⟩
  else if close_series.length < 52 then ⟨20, -5 / 100⟩
  else
    let result := optimize ticker close_series high_series low_series
    ⟨result.period, result.shift⟩

/-- Strict lexicographic order on `(period, shift)` candidates. -/
def lexLt (a b : ℕ × ℚ) : Prop :=
  a.1 < b.1 ∨ (a.1 = b.1 ∧ a.2 < b.2)

/-- Lexicographic order (allowing equality) on `(period, shift)` candidates. -/
def lexLe (a b : ℕ × ℚ) : Prop :=
  a.1 < b.1 ∨ (a.1 = b.1 ∧ a.2 ≤ b.2)

/-- Parameter lookup `fbis_params.get(ticker, {}).get('period', 8)` shared by
`analyze_etf_risk`, `calculate_portfolio_series` and `calculate_portfolio_risk`. -/
def resolvedPeriod (fbis_params : String → Option ParamEntry) (ticker : String) : ℕ :=
  match fbis_params ticker with
  | some e => e.period
  | none => 8

/-- Parameter lookup `fbis_params.get(ticker, {}).get('shift', 0)` shared by
the same three risk-layer functions. -/
def resolvedShift (fbis_params : String → Option ParamEntry) (ticker : String) : ℚ :=
  match fbis_params ticker with
  | some e => e.shift
  | none => 0

/-- Override the persisted parameter record at a single ticker. -/
def updateParams (fbis_params : String → Option ParamEntry) (ticker : String)
    (e : ParamEntry) : String → Option ParamEntry :=
  fun s => if s = ticker then some e else fbis_params s

/-- Source `calculate_satid_score_linear(distance_pct, volatility_weekly,
horizon_weeks)`: `100` at or below support, otherwise the clamped
volatility-adjusted z-score `max(0, min(100, 100 - z·25))` with
`z = distance_pct / (volatility_weekly·√horizon_weeks)`. -/
noncomputable def calculate_satid_score_linear (distance_pct volatility_weekly : ℝ)
    (horizon_weeks : ℝ) : ℝ :=
  if distance_pct ≤ 0 then 100
  else
    let volatility_horizon := volatility_weekly * Real.sqrt horizon_weeks
    let z_score := distance_pct / volatility_horizon
    let score := 100 - z_score * 25
    max 0 (min 100 score)

/-- Weekly simple returns `np.diff(prices) / prices[:-1]`. -/
noncomputable def simpleReturns (prices : List ℝ) : List ℝ :=
  (prices.zip prices.tail).map fun pq => (pq.2 - pq.1) / pq.1

/-- Sample standard deviation `np.std(xs, ddof=1)` (Bessel's correction). -/
noncomputable def npStdSample (xs : List ℝ) : ℝ :=
  let mean := xs.sum / (xs.length : ℝ)
  Real.sqrt ((xs.map fun x => (x - mean) ^ 2).sum / ((xs.length : ℝ) - 1))

/-- Source `calculate_etf_volatility(prices, weeks=13)`: sample standard
deviation of the last `weeks` simple weekly returns, the window shrunk when
fewer bars exist. -/
noncomputable def calculate_etf_volatility (prices : List ℝ) (weeks : ℕ) : ℝ :=
  let weeks' := if prices.length < weeks + 1 then prices.length - 1 else weeks
  let recent_prices := prices.drop (prices.length - (weeks' + 1))
  npStdSample (simpleReturns recent_prices)

/-- Result record of `analyze_etf_risk` (the `allocation` / contribution fields
are initialized to 0 by the source and filled in later by its callers). -/
structure EtfRisk where
  ticker : String
  current_price : ℝ
  fbis : ℝ
  distance_pct : ℝ
  volatility_weekly : ℝ
  satid_score_1week : ℝ
  satid_score_1month : ℝ
  allocation : ℝ
  contribution_1week : ℝ
  contribution_1month : ℝ

/-- Source `analyze_etf_risk(ticker, prices, fbis_params, weeks_lookback=13)`:
support level from the last EMA value shifted by the persisted (or default)
parameters, distance, trailing volatility and the two horizon scores. -/
noncomputable def analyze_etf_risk (ticker : String) (prices : List ℝ)
    (fbis_params : String → Option ParamEntry) : EtfRisk :=
  let current_price := prices.getLastD 0
  let period := resolvedPeriod fbis_params ticker
  let shift := resolvedShift fbis_params ticker
  let ema := calculate_ema prices period
  let fbis := ema.getLastD 0 * (1 + (shift : ℝ))
  let distance_pct := (current_price - fbis) / current_price
  let volatility := calculate_etf_volatility prices 13
  let score_1week := calculate_satid_score_linear distance_pct volatility 1
  let score_1month := calculate_satid_score_linear distance_pct volatility 4.33
  ⟨ticker, current_price, fbis, distance_pct, volatility, score_1week, score_1month, 0, 0, 0⟩

/-- Elementwise sum of two numpy arrays (`+=` on equal-length vectors). -/
def vecAdd (xs ys : List ℚ) : List ℚ :=
  List.zipWith (· + ·) xs ys

/-- Per-ticker accumulation step of `calculate_portfolio_series`: skip a ticker
without a close column, otherwise add its weighted normalized prices and its
weighted normalized FBIS line. -/
def portfolioSeriesStep (columns : String → Option (List ℚ))
    (fbis_params : String → Option ParamEntry) (acc : List ℚ × List ℚ)
    (tw : String × ℚ) : List ℚ × List ℚ :=
  match columns tw.1 with
  | none => acc
  | some prices =>
    let period := resolvedPeriod fbis_params tw.1
    let shift := resolvedShift fbis_params tw.1
    let ema := calculate_ema prices period
    let fbis := ema.map fun e => e * (1 + shift)
    (vecAdd acc.1 (prices.map fun p => p / prices.headD 0 * tw.2),
     vecAdd acc.2 (fbis.map fun f => f / prices.headD 0 * tw.2))

/-- Source `calculate_portfolio_series(ohlc_file, allocations, fbis_params)`:
normalized portfolio value and FBIS support series (the OHLC file is modelled
as its date index plus a per-ticker close-column lookup). -/
def calculate_portfolio_series (dates : List ℤ) (columns : String → Option (List ℚ))
    (allocations : List (String × ℚ)) (fbis_params : String → Option ParamEntry) :
    List ℤ × List ℚ × List ℚ :=
  let n_periods := dates.length
  let folded := allocations.foldl (portfolioSeriesStep columns fbis_params)
    (List.replicate n_periods 0, List.replicate n_periods 0)
  (dates, folded.1, folded.2)

/-- One row of `calculate_portfolio_risk`'s `risk_data`. -/
structure RiskRow where
  ticker : String
  asset_class : String
  allocation_pct : ℚ
  pct_to_support : ℚ
  usd_at_risk : ℚ
deriving DecidableEq

/-- Accumulated per-asset-class summary entry of `calculate_portfolio_risk`. -/
structure ACSummary where
  weight : ℚ
  avg_dist : ℚ
  usd_at_risk : ℚ
  count : ℕ
deriving DecidableEq

/-- Insertion-ordered dict update for the asset-class summary. -/
def updateSummary (summary : List (String × ACSummary)) (asset_class : String)
    (allocation_pct pct_to_support usd_at_risk : ℚ) : List (String × ACSummary) :=
  if summary.any fun p => p.1 == asset_class then
    summary.map fun p =>
      if p.1 == asset_class then
        (p.1, ⟨p.2.weight + allocation_pct, p.2.avg_dist + pct_to_support * allocation_pct,
               p.2.usd_at_risk + usd_at_risk, p.2.count + 1⟩)
      else p
  else
    summary ++ [(asset_class, ⟨allocation_pct, pct_to_support * allocation_pct, usd_at_risk, 1⟩)]

/-- Per-ticker accumulation step of `calculate_portfolio_risk`. -/
def portfolioRiskStep (columns : String → Option (List ℚ))
    (asset_classes : String → Option String) (fbis_params : String → Option ParamEntry)
    (portfolio_value : ℚ) (acc : List RiskRow × List (String × ACSummary))
    (tw : String × ℚ) : List RiskRow × List (String × ACSummary) :=
  match columns tw.1 with
  | none => acc
  | some prices =>
    let current_price := prices.getLastD 0
    let period := resolvedPeriod fbis_params tw.1
    let shift := resolvedShift fbis_params tw.1
    let ema := calculate_ema prices period
    let fbis_support := ema.getLastD 0 * (1 + shift)
    let pct_to_support := (current_price - fbis_support) / current_price * 100
    let position_value := portfolio_value * (tw.2 / 100)
    let usd_at_risk := position_value * (-pct_to_support / 100)
    let asset_class := (asset_classes tw.1).getD "Unknown"
    (acc.1 ++ [⟨tw.1, asset_class, tw.2, pct_to_support, usd_at_risk⟩],
     updateSummary acc.2 asset_class tw.2 pct_to_support usd_at_risk)

/-- Source `calculate_portfolio_risk(df, allocations, asset_classes,
fbis_params, portfolio_value)`: the per-ticker risk rows plus the per-class
summary, whose `avg_dist` is weight-normalized at the end. -/
def calculate_portfolio_risk (columns : String → Option (List ℚ))
    (allocations : List (String × ℚ)) (asset_classes : String → Option String)
    (fbis_params : String → Option ParamEntry) (portfolio_value : ℚ) :
    List RiskRow × List (String × ACSummary) :=
  let folded := allocations.foldl
    (portfolioRiskStep columns asset_classes fbis_params portfolio_value) ([], [])
  (folded.1, folded.2.map fun p =>
    (p.1, ⟨p.2.weight, if 0 < p.2.weight then p.2.avg_dist / p.2.weight else 0,
           p.2.usd_at_risk, p.2.count⟩))

/-- A concrete 10-bar constant-price weekly series (dates 0..9, price 100),
used as a test fixture: on it every candidate of a profile whose shift range
reaches 0 ties with the same score. -/
def tieSeries : Series :=
  [(0, 100), (1, 100), (2, 100), (3, 100), (4, 100),
   (5, 100), (6, 100), (7, 100), (8, 100), (9, 100)]

/-! Helper lemmas. -/

theorem maskFilter_map {α β : Type} (f : α → β) :
    ∀ (mask : List Bool) (xs : List α),
      maskFilter mask (xs.map f) = (maskFilter mask xs).map f := by
  intro mask
  induction mask with
  | nil => intro xs; simp [maskFilter]
  | cons b ms ih =>
    intro xs
    cases xs with
    | nil => simp [maskFilter]
    | cons x xs =>
      cases b with
      | false => simpa [maskFilter] using ih xs
      | true => simpa [maskFilter] using ih xs

theorem idxminGo_spec : ∀ (rest : Series) (best : ℤ × ℚ),
    ∃ p, (p = best ∨ p ∈ rest) ∧ idxminGo best rest = p.1 ∧ p.2 ≤ best.2 ∧
      ∀ q ∈ rest, p.2 ≤ q.2 := by
  intro rest
  induction rest with
  | nil =>
    intro best
    exact ⟨best, Or.inl rfl, rfl, le_refl _, by simp⟩
  | cons r rest ih =>
    intro best
    by_cases h : r.2 < best.2
    · obtain ⟨p, hmem, heq, hle, hall⟩ := ih r
      refine ⟨p, ?_, ?_, le_trans hle (le_of_lt h), ?_⟩
      · rcases hmem with h1 | h1
        · exact Or.inr (by simp [h1])
        · exact Or.inr (List.mem_cons_of_mem _ h1)
      · simpa [idxminGo, h] using heq
      · intro q hq
        rcases List.mem_cons.mp hq with h1 | h1
        · rw [h1]; exact hle
        · exact hall q h1
    · obtain ⟨p, hmem, heq, hle, hall⟩ := ih best
      refine ⟨p, ?_, ?_, hle, ?_⟩
      · rcases hmem with h1 | h1
        · exact Or.inl h1
        · exact Or.inr (List.mem_cons_of_mem _ h1)
      · simpa [idxminGo, h] using heq
      · intro q hq
        rcases List.mem_cons.mp hq with h1 | h1
        · rw [h1]; exact le_trans hle (not_lt.mp h)
        · exact hall q h1

theorem idxmin_spec (s : Series) (hne : s ≠ []) :
    ∃ p ∈ s, idxmin s = p.1 ∧ ∀ q ∈ s, p.2 ≤ q.2 := by
  cases s with
  | nil => exact absurd rfl hne
  | cons a rest =>
    obtain ⟨p, hmem, heq, hle, hall⟩ := idxminGo_spec rest a
    refine ⟨p, ?_, by simpa [idxmin] using heq, ?_⟩
    · rcases hmem with h | h
      · simp [h]
      · exact List.mem_cons_of_mem _ h
    · intro q hq
      rcases List.mem_cons.mp hq with h | h
      · rw [h]; exact hle
      · exact hall q h

theorem barCounts_snd_le_one (fbis_level low_price close_price : ℚ) :
    (barCounts fbis_level low_price close_price).2 ≤ 1 := by
  unfold barCounts
  split
  · split <;> simp
  · split <;> simp

theorem scoreFold_snd_le (L : List (ℚ × ℚ × ℚ)) :
    ∀ acc : ℕ × ℕ, (L.foldl scoreStep acc).2 ≤ acc.2 + L.length := by
  induction L with
  | nil => intro acc; simp
  | cons t L ih =>
    intro acc
    have h1 := ih (scoreStep acc t)
    have h2 := barCounts_snd_le_one t.1 t.2.1 t.2.2
    have h3 : (scoreStep acc t).2 = acc.2 + (barCounts t.1 t.2.1 t.2.2).2 := rfl
    simp only [List.foldl_cons, List.length_cons]
    omega

theorem scoreWindow_snd_le (fbis_line opt_low opt_close : List ℚ) :
    (scoreWindow fbis_line opt_low opt_close).2 ≤ opt_close.length := by
  have h := scoreFold_snd_le (fbis_line.zip (opt_low.zip opt_close)) (0, 0)
  have hlen : (fbis_line.zip (opt_low.zip opt_close)).length ≤ opt_close.length := by
    simp only [List.length_zip]
    omega
  unfold scoreWindow
  omega

theorem candScore_gt (closes lows : List ℚ) (mask : List Bool) (c : ℕ × ℚ)
    (hb : 3 * (maskFilter mask closes).length < 999999) :
    (-999999 : ℚ) < candScore closes lows mask c := by
  have h2 : (candidateEval closes lows mask c).2 ≤ (maskFilter mask closes).length :=
    scoreWindow_snd_le _ _ _
  have hb3 : 3 * (candidateEval closes lows mask c).2 < 999999 := by omega
  have hcast : ((3 * (candidateEval closes lows mask c).2 : ℕ) : ℚ) < 999999 := by
    exact_mod_cast hb3
  have ht : (0 : ℚ) ≤ ((candidateEval closes lows mask c).1 : ℚ) := Nat.cast_nonneg _
  unfold candScore scorePoints SUPPORT_TEST_REWARD BREACH_PENALTY
  push_cast at hcast
  linarith

theorem pickBest_from_some {α : Type} (f : α → ℚ) :
    ∀ (L : List α) (b : α),
      ∃ c, pickBest f L (some b, f b) = (some c, f c) ∧ f b ≤ f c ∧
        (∀ a ∈ L, f a ≤ f c) ∧
        (c = b ∨ ∃ l1 l2, L = l1 ++ c :: l2 ∧ f b < f c ∧ ∀ a ∈ l1, f a < f c) := by
  intro L
  induction L with
  | nil =>
    intro b
    exact ⟨b, rfl, le_refl _, by simp, Or.inl rfl⟩
  | cons a L ih =>
    intro b
    by_cases hupd : f b < f a
    · obtain ⟨c, heq, hle, hall, hsplit⟩ := ih a
      have heq' : pickBest f (a :: L) (some b, f b) = (some c, f c) := by
        simp only [pickBest]
        rw [if_pos hupd]
        exact heq
      refine ⟨c, heq', le_trans (le_of_lt hupd) hle, ?_, ?_⟩
      · intro x hx
        rcases List.mem_cons.mp hx with h1 | h1
        · rw [h1]; exact hle
        · exact hall x h1
      · rcases hsplit with h1 | ⟨l1, l2, hL, hflt, hl1⟩
        · rw [h1]
          exact Or.inr ⟨[], L, by simp, hupd, by simp⟩
        · refine Or.inr ⟨a :: l1, l2, by rw [hL, List.cons_append], lt_trans hupd hflt, ?_⟩
          intro x hx
          rcases List.mem_cons.mp hx with h1 | h1
          · rw [h1]; exact hflt
          · exact hl1 x h1
    · obtain ⟨c, heq, hle, hall, hsplit⟩ := ih b
      have heq' : pickBest f (a :: L) (some b, f b) = (some c, f c) := by
        simp only [pickBest]
        rw [if_neg hupd]
        exact heq
      refine ⟨c, heq', hle, ?_, ?_⟩
      · intro x hx
        rcases List.mem_cons.mp hx with h1 | h1
        · rw [h1]; exact le_trans (not_lt.mp hupd) hle
        · exact hall x h1
      · rcases hsplit with h1 | ⟨l1, l2, hL, hflt, hl1⟩
        · exact Or.inl h1
        · refine Or.inr ⟨a :: l1, l2, by rw [hL, List.cons_append], hflt, ?_⟩
          intro x hx
          rcases List.mem_cons.mp hx with h1 | h1
          · rw [h1]; exact lt_of_le_of_lt (not_lt.mp hupd) hflt
          · exact hl1 x h1

theorem pickBest_from_none {α : Type} (f : α → ℚ) (s0 : ℚ) (L : List α)
    (hne : L ≠ []) (hgt : ∀ a ∈ L, s0 < f a) :
    ∃ l1 c l2, L = l1 ++ c :: l2 ∧
      pickBest f L (none, s0) = (some c, f c) ∧
      (∀ a ∈ L, f a ≤ f c) ∧ (∀ a ∈ l1, f a < f c) := by
  cases L with
  | nil => exact absurd rfl hne
  | cons a L =>
    have h0 : s0 < f a := hgt a (List.mem_cons_self a L)
    obtain ⟨c, heq, hle, hall, hsplit⟩ := pickBest_from_some f L a
    have heq' : pickBest f (a :: L) (none, s0) = (some c, f c) := by
      simp only [pickBest]
      rw [if_pos h0]
      exact heq
    rcases hsplit with h1 | ⟨l1, l2, hL, hflt, hl1⟩
    · refine ⟨[], c, L, by simp [h1], heq', ?_, by simp⟩
      intro x hx
      rcases List.mem_cons.mp hx with h2 | h2
      · rw [h2]; exact le_trans hle (le_refl _)
      · exact hall x h2
    · refine ⟨a :: l1, c, l2, by rw [hL, List.cons_append], heq', ?_, ?_⟩
      · intro x hx
        rcases List.mem_cons.mp hx with h2 | h2
        · rw [h2]; exact hle
        · exact hall x h2
      · intro x hx
        rcases List.mem_cons.mp hx with h2 | h2
        · rw [h2]; exact hflt
        · exact hl1 x h2

theorem lexLe_of_lexLt (a b : ℕ × ℚ) (h : lexLt a b) : lexLe a b := by
  rcases h with h | ⟨h1, h2⟩
  · exact Or.inl h
  · exact Or.inr ⟨h1, le_of_lt h2⟩

theorem arangeQ_pairwise (start stop step : ℚ) (hstep : 0 < step) :
    List.Pairwise (· < ·) (arangeQ start stop step) := by
  unfold arangeQ
  refine List.Pairwise.map _ ?_ (List.pairwise_lt_range _)
  intro i j hij
  have hq : (i : ℚ) < (j : ℚ) := by exact_mod_cast hij
  have := mul_lt_mul_of_pos_right hq hstep
  linarith

theorem arangeQ_ne_nil (start stop step : ℚ) (hlt : start < stop) (hstep : 0 < step) :
    arangeQ start stop step ≠ [] := by
  unfold arangeQ
  intro hc
  rw [List.map_eq_nil_iff, List.range_eq_nil] at hc
  have hpos : 0 < (stop - start) / step := div_pos (by linarith) hstep
  have hceil : 0 < ⌈(stop - start) / step⌉ := Int.ceil_pos.mpr hpos
  omega

theorem pyRange_pairwise (start stop step : ℕ) (hstep : 0 < step) :
    List.Pairwise (· < ·) (pyRange start stop step) := by
  unfold pyRange
  refine List.Pairwise.map _ ?_ (List.pairwise_lt_range _)
  intro i j hij
  exact Nat.add_lt_add_left (Nat.mul_lt_mul_of_lt_of_le hij (le_refl step) hstep) start

theorem pyRange_ne_nil (start stop step : ℕ) (hlt : start < stop) (hstep : 0 < step) :
    pyRange start stop step ≠ [] := by
  unfold pyRange
  intro hc
  rw [List.map_eq_nil_iff, List.range_eq_nil] at hc
  have hle : step ≤ stop - start + step - 1 := by omega
  have := (Nat.one_le_div_iff hstep).mpr hle
  omega

theorem lexLt_flatMap_grid : ∀ (ps : List ℕ), List.Pairwise (· < ·) ps →
    ∀ (ss : List ℚ), List.Pairwise (· < ·) ss →
    List.Pairwise lexLt (ps.flatMap fun period => ss.map fun shift => (period, shift)) := by
  intro ps
  induction ps with
  | nil => intro _ ss _; simp
  | cons p ps ih =>
    intro hp ss hs
    obtain ⟨hhead, htail⟩ := List.pairwise_cons.mp hp
    rw [List.flatMap_cons, List.pairwise_append]
    refine ⟨?_, ih htail ss hs, ?_⟩
    · refine List.Pairwise.map _ ?_ hs
      intro a b hab
      exact Or.inr ⟨rfl, hab⟩
    · intro x hx y hy
      obtain ⟨sx, _, hxeq⟩ := List.mem_map.mp hx
      obtain ⟨q, hqmem, hy2⟩ := List.mem_flatMap.mp hy
      obtain ⟨sy, _, hyeq⟩ := List.mem_map.mp hy2
      rw [← hxeq, ← hyeq]
      exact Or.inl (hhead q hqmem)

theorem gridCandidates_pairwise (p : Profile)
    (h1 : List.Pairwise (· < ·) p.ema_range) (h2 : List.Pairwise (· < ·) p.shift_range) :
    List.Pairwise lexLt (gridCandidates p) :=
  lexLt_flatMap_grid p.ema_range h1 p.shift_range h2

theorem gridCandidates_ne_nil (p : Profile)
    (h1 : p.ema_range ≠ []) (h2 : p.shift_range ≠ []) :
    gridCandidates p ≠ [] := by
  obtain ⟨a, l, hps⟩ := List.exists_cons_of_ne_nil h1
  unfold gridCandidates
  rw [hps, List.flatMap_cons]
  intro hc
  have := (List.append_eq_nil.mp hc).1
  rw [List.map_eq_nil_iff] at this
  exact h2 this

theorem lookup_mem_values {β : Type} :
    ∀ (l : List (String × β)) (k : String) (v : β),
      l.lookup k = some v → v ∈ l.map Prod.snd := by
  intro l
  induction l with
  | nil => intro k v h; simp [List.lookup] at h
  | cons p l ih =>
    intro k v h
    rw [List.lookup] at h
    cases hk : (k == p.1) with
    | true =>
      rw [hk] at h
      simp only [] at h
      simp at h
      simp [h]
    | false =>
      rw [hk] at h
      simp only [] at h
      exact List.mem_cons_of_mem _ (ih k v h)

theorem profile_ranges_good : ∀ pr ∈ CONSTRAINTS.map Prod.snd,
    List.Pairwise (· < ·) pr.ema_range ∧ List.Pairwise (· < ·) pr.shift_range ∧
    pr.ema_range ≠ [] ∧ pr.shift_range ≠ [] := by
  intro pr hpr
  simp only [CONSTRAINTS, List.map_cons, List.map_nil, List.mem_cons,
    List.not_mem_nil, or_false] at hpr
  rcases hpr with h | h | h | h | h | h | h <;> rw [h] <;>
    exact ⟨pyRange_pairwise _ _ _ (by norm_num),
           arangeQ_pairwise _ _ _ (by norm_num),
           pyRange_ne_nil _ _ _ (by norm_num) (by norm_num),
           arangeQ_ne_nil _ _ _ (by norm_num) (by norm_num)⟩

theorem largeCapProfile_good :
    List.Pairwise (· < ·) largeCapProfile.ema_range ∧
    List.Pairwise (· < ·) largeCapProfile.shift_range ∧
    largeCapProfile.ema_range ≠ [] ∧ largeCapProfile.shift_range ≠ [] :=
  ⟨pyRange_pairwise _ _ _ (by norm_num), arangeQ_pairwise _ _ _ (by norm_num),
   pyRange_ne_nil _ _ _ (by norm_num) (by norm_num),
   arangeQ_ne_nil _ _ _ (by norm_num) (by norm_num)⟩

theorem constraintsOfClass_good (s : String) :
    List.Pairwise (· < ·) (constraintsOfClass s).ema_range ∧
    List.Pairwise (· < ·) (constraintsOfClass s).shift_range ∧
    (constraintsOfClass s).ema_range ≠ [] ∧ (constraintsOfClass s).shift_range ≠ [] := by
  unfold constraintsOfClass
  cases h : CONSTRAINTS.lookup s with
  | none => exact largeCapProfile_good
  | some pr => exact profile_ranges_good pr (lookup_mem_values _ _ _ h)

theorem resolvedPeriod_update (fbis_params : String → Option ParamEntry) (ticker : String)
    (h : fbis_params ticker = none) :
    resolvedPeriod (updateParams fbis_params ticker ⟨8, 0⟩) = resolvedPeriod fbis_params := by
  funext s
  unfold resolvedPeriod updateParams
  by_cases hs : s = ticker
  · rw [if_pos hs, hs, h]
  · rw [if_neg hs]

theorem resolvedShift_update (fbis_params : String → Option ParamEntry) (ticker : String)
    (h : fbis_params ticker = none) :
    resolvedShift (updateParams fbis_params ticker ⟨8, 0⟩) = resolvedShift fbis_params := by
  funext s
  unfold resolvedShift updateParams
  by_cases hs : s = ticker
  · rw [if_pos hs, hs, h]
  · rw [if_neg hs]

theorem portfolioSeriesStep_update (columns : String → Option (List ℚ))
    (fbis_params : String → Option ParamEntry) (ticker : String)
    (h : fbis_params ticker = none) :
    portfolioSeriesStep columns (updateParams fbis_params ticker ⟨8, 0⟩) =
      portfolioSeriesStep columns fbis_params := by
  funext acc tw
  unfold portfolioSeriesStep
  rw [resolvedPeriod_update fbis_params ticker h, resolvedShift_update fbis_params ticker h]

theorem portfolioRiskStep_update (columns : String → Option (List ℚ))
    (asset_classes : String → Option String) (fbis_params : String → Option ParamEntry)
    (ticker : String) (portfolio_value : ℚ) (h : fbis_params ticker = none) :
    portfolioRiskStep columns asset_classes (updateParams fbis_params ticker ⟨8, 0⟩)
        portfolio_value =
      portfolioRiskStep columns asset_classes fbis_params portfolio_value := by
  funext acc tw
  unfold portfolioRiskStep
  rw [resolvedPeriod_update fbis_params ticker h, resolvedShift_update fbis_params ticker h]

/-! Claim theorems. -/

/-- C1 (counterexample): a bar whose low lies inside the ±2.5% tolerance band of
the support level but whose close is strictly below it — level 100, low 99,
close 98 — is counted as neither a support test nor a breach by the optimizer's
classification, refuting the claim that such a bar is counted as a breach. -/
theorem C1_counterexample :
    (-TOUCH_TOLERANCE_PCT ≤ ((99 : ℚ) - 100) / 100 * 100 ∧
      ((99 : ℚ) - 100) / 100 * 100 ≤ TOUCH_TOLERANCE_PCT) ∧
    (98 : ℚ) < 100 ∧
    barCounts 100 99 98 ≠ (0, 1) ∧
    barCounts 100 99 98 = (0, 0) := by
  with_unfolding_all decide

/-- C1 (amended): the per-bar classification of
`ConstrainedFbisOptimizer.optimize` works in this priority order: when the low
is within the ±2.5% tolerance band of the support level, the bar is a support
test if its close is at or above the level and otherwise counts as nothing at
all (in particular it is NOT counted as a breach even when the close is
strictly below the level); only a bar whose low is outside the band is
classified as a breach, exactly when its close is strictly below the level. -/
theorem C1_classification_priority (fbis_level low_price close_price : ℚ) :
    ((-TOUCH_TOLERANCE_PCT ≤ (low_price - fbis_level) / fbis_level * 100 ∧
        (low_price - fbis_level) / fbis_level * 100 ≤ TOUCH_TOLERANCE_PCT) →
      (fbis_level ≤ close_price →
        barCounts fbis_level low_price close_price = (1, 0)) ∧
      (close_price < fbis_level →
        barCounts fbis_level low_price close_price = (0, 0))) ∧
    (¬(-TOUCH_TOLERANCE_PCT ≤ (low_price - fbis_level) / fbis_level * 100 ∧
        (low_price - fbis_level) / fbis_level * 100 ≤ TOUCH_TOLERANCE_PCT) →
      (close_price < fbis_level →
        barCounts fbis_level low_price close_price = (0, 1)) ∧
      (fbis_level ≤ close_price →
        barCounts fbis_level low_price close_price = (0, 0))) := by
  unfold barCounts
  constructor
  · intro hband
    refine ⟨fun hc => ?_, fun hc => ?_⟩
    · rw [if_pos hband, if_pos hc]
    · rw [if_pos hband, if_neg (not_le.mpr hc)]
  · intro hband
    refine ⟨fun hc => ?_, fun hc => ?_⟩
    · rw [if_neg hband, if_pos hc]
    · rw [if_neg hband, if_neg (not_lt.mpr hc)]

/-- C1 (witness): the amended classification applied to the concrete in-band
bar (level 100, low 99, close 98), which contributes to neither count. -/
theorem C1_witness :
    ((-TOUCH_TOLERANCE_PCT ≤ ((99 : ℚ) - 100) / 100 * 100 ∧
        ((99 : ℚ) - 100) / 100 * 100 ≤ TOUCH_TOLERANCE_PCT) ∧
      (98 : ℚ) < 100) ∧
    barCounts 100 99 98 = (0, 0) :=
  ⟨⟨by with_unfolding_all decide, by with_unfolding_all decide⟩,
   ((C1_classification_priority 100 99 98).1 (by with_unfolding_all decide)).2
     (by with_unfolding_all decide)⟩

/-- C5: `calculate_satid_score_linear` always returns a value in `[0, 100]`,
and returns exactly 100 whenever `distance_pct ≤ 0`, for every volatility and
horizon argument. -/
theorem C5_score_range (distance_pct volatility_weekly horizon_weeks : ℝ) :
    (0 ≤ calculate_satid_score_linear distance_pct volatility_weekly horizon_weeks ∧
      calculate_satid_score_linear distance_pct volatility_weekly horizon_weeks ≤ 100) ∧
    (distance_pct ≤ 0 →
      calculate_satid_score_linear distance_pct volatility_weekly horizon_weeks = 100) := by
  unfold calculate_satid_score_linear
  by_cases h : distance_pct ≤ 0
  · rw [if_pos h]
    norm_num
  · rw [if_neg h]
    refine ⟨⟨le_max_left _ _, max_le (by norm_num) (min_le_left _ _)⟩,
      fun hc => absurd hc h⟩

/-- C5 (witness): at `distance_pct = -0.01` the score is exactly 100 and lies
in `[0, 100]`, regardless of the (here concrete) volatility. -/
theorem C5_witness :
    ((-0.01 : ℝ) ≤ 0) ∧ calculate_satid_score_linear (-0.01) 5 1 = 100 :=
  ⟨by norm_num, (C5_score_range (-0.01) 5 1).2 (by norm_num)⟩

/-- C7: the support line evaluated by a candidate is `(1+shift)` times the EMA
computed over the entire close series and then restricted to the evaluation
window; and restricting the full-series EMA differs from restarting the EMA
recurrence at the window's first bar (witnessed on closes `[1,2,3,4]` with the
window dropping the first bar, period 3). -/
theorem C7_full_series_ema (closes : List ℚ) (mask : List Bool) (period : ℕ) (shift : ℚ) :
    fbisLine closes mask period shift =
      maskFilter mask ((calculate_ema closes period).map fun e => e * (1 + shift)) ∧
    maskFilter [false, true, true, true] (calculate_ema ([1, 2, 3, 4] : List ℚ) 3) ≠
      calculate_ema (maskFilter [false, true, true, true] ([1, 2, 3, 4] : List ℚ)) 3 := by
  constructor
  · unfold fbisLine
    rw [maskFilter_map]
  · with_unfolding_all decide

/-- C8: for `distance_pct > 0` the score is
`clamp(100 - 25·distance_pct/(volatility·√horizon), 0, 100)`; in particular at
`distance_pct = 0.05`, `volatility = 0.02`, `horizon = 1` the score is 37.5. -/
theorem C8_score_formula (distance_pct volatility_weekly horizon_weeks : ℝ)
    (h : 0 < distance_pct) :
    calculate_satid_score_linear distance_pct volatility_weekly horizon_weeks =
      max 0 (min 100
        (100 - 25 * distance_pct / (volatility_weekly * Real.sqrt horizon_weeks))) := by
  unfold calculate_satid_score_linear
  rw [if_neg (not_le.mpr h)]
  ring_nf

/-- C8 (witness): the scenario `distance_pct = 0.05`, `volatility = 0.02`,
`horizon = 1 week` gives score exactly 37.5 (z-score 2.5, 100 − 62.5). -/
theorem C8_witness :
    (0 : ℝ) < 0.05 ∧ calculate_satid_score_linear 0.05 0.02 1 = 37.5 := by
  refine ⟨by norm_num, ?_⟩
  rw [C8_score_formula 0.05 0.02 1 (by norm_num), Real.sqrt_one]
  norm_num

/-- C9: with reward 1.0 and penalty 3.0, the evaluation score is strictly
decreasing in the breach count at a fixed support-test count. -/
theorem C9_breach_monotonic (tests b1 b2 : ℕ) (h : b1 < b2) :
    scorePoints tests b2 < scorePoints tests b1 := by
  unfold scorePoints SUPPORT_TEST_REWARD BREACH_PENALTY
  have hq : (b1 : ℚ) < (b2 : ℚ) := by exact_mod_cast h
  linarith

/-- C9 (witness): at 5 tests, 2 breaches score strictly below 1 breach. -/
theorem C9_witness : 1 < 2 ∧ scorePoints 5 2 < scorePoints 5 1 :=
  ⟨by norm_num, C9_breach_monotonic 5 1 2 (by norm_num)⟩

/-- C3: on insufficient data the engine returns fixed defaults and never
fails: the batch runner records `{period: 20, shift: -0.05}` for a close series
shorter than 52 bars, and `optimize` returns the default result with
`tests = 0`, `breaches = 0`, `score = 0` when the evaluation window from the
trend start holds fewer than 10 bars. -/
theorem C3_insufficient_data :
    (∀ (ticker : String) (close_series high_series low_series : Series),
        close_series.length < 52 →
        optimize_all_etfs_step true ticker close_series high_series low_series =
          ⟨20, -5 / 100⟩) ∧
    (∀ (ticker : String) (close_series high_series low_series : Series),
        (windowCloses close_series high_series low_series).length < 10 →
        optimize ticker close_series high_series low_series =
          ⟨20, -5 / 100, 0, 0, 0,
            trendStartOf close_series high_series low_series, none⟩) := by
  constructor
  · intro ticker close_series high_series low_series hlen
    unfold optimize_all_etfs_step
    rw [if_neg (by simp), if_pos hlen]
  · intro ticker close_series high_series low_series hwin
    unfold optimize
    rw [if_pos hwin]
    rfl

/-- C3 (witness): a 2-bar close series gets the batch default, and a 1-bar
series (window of 1 bar < 10) makes `optimize` return the default result. -/
theorem C3_witness :
    (([(0, 1), (1, 2)] : Series).length < 52 ∧
      optimize_all_etfs_step true "X" [(0, 1), (1, 2)] [] [] = ⟨20, -5 / 100⟩) ∧
    ((windowCloses [(0, 100)] [(0, 100)] [(0, 100)]).length < 10 ∧
      optimize "X" [(0, 100)] [(0, 100)] [(0, 100)] =
        ⟨20, -5 / 100, 0, 0, 0, trendStartOf [(0, 100)] [(0, 100)] [(0, 100)], none⟩) :=
  ⟨⟨by with_unfolding_all decide,
    C3_insufficient_data.1 "X" [(0, 1), (1, 2)] [] [] (by with_unfolding_all decide)⟩,
   ⟨by with_unfolding_all decide,
    C3_insufficient_data.2 "X" [(0, 100)] [(0, 100)] [(0, 100)]
      (by with_unfolding_all decide)⟩⟩

/-- C4: whenever the swing-point detector (window 4) finds fewer than 2 swing
highs, `detect_trend_change` returns the date of the first global minimum of
the close series with no detection metadata. -/
theorem C4_fallback_global_min (close_series high_series low_series : Series)
    (hne : close_series ≠ [])
    (hfew : (find_swing_highs high_series 4).length < 2) :
    detect_trend_change close_series high_series low_series =
      (idxmin close_series, DetectionInfo.noInfo) ∧
    ∃ p ∈ close_series, p.1 = idxmin close_series ∧
      ∀ q ∈ close_series, p.2 ≤ q.2 := by
  constructor
  · simp only [detect_trend_change]
    rw [if_pos hfew]
  · obtain ⟨p, hp, heq, hall⟩ := idxmin_spec close_series hne
    exact ⟨p, hp, heq.symm, hall⟩

/-- C4 (witness): a 1-bar high series yields no swing highs, and the trend
start is the date (1) of the global minimum close (value 3). -/
theorem C4_witness :
    (([(0, 5), (1, 3), (2, 4)] : Series) ≠ [] ∧
      (find_swing_highs [(0, 1)] 4).length < 2) ∧
    detect_trend_change [(0, 5), (1, 3), (2, 4)] [(0, 1)] [] =
      (1, DetectionInfo.noInfo) ∧
    ∃ p ∈ ([(0, 5), (1, 3), (2, 4)] : Series),
      p.1 = idxmin [(0, 5), (1, 3), (2, 4)] ∧
      ∀ q ∈ ([(0, 5), (1, 3), (2, 4)] : Series), p.2 ≤ q.2 := by
  have h := C4_fallback_global_min [(0, 5), (1, 3), (2, 4)] [(0, 1)] []
    (by simp) (by with_unfolding_all decide)
  refine ⟨⟨by simp, by with_unfolding_all decide⟩, ?_, h.2⟩
  rw [h.1]
  with_unfolding_all decide

/-- C6 (counterexample): the unmapped ticker "ZZZ" resolves to the `large_cap`
profile, which is NOT the widest-ranged profile: the configured `thematic`
profile has strictly more candidate periods and strictly more candidate
shifts, refuting the claim that unmapped instruments get the broadest
profile. -/
theorem C6_counterexample :
    ASSET_CLASSES.lookup "ZZZ" = none ∧
    assetClassOf "ZZZ" = "large_cap" ∧
    constraintsOfClass (assetClassOf "ZZZ") = largeCapProfile ∧
    ("thematic", thematicProfile) ∈ CONSTRAINTS ∧
    largeCapProfile.ema_range.length < thematicProfile.ema_range.length ∧
    largeCapProfile.shift_range.length < thematicProfile.shift_range.length := by
  with_unfolding_all decide

/-- C6 (amended): every instrument identifier absent from the static
`ASSET_CLASSES` mapping resolves to the fixed `large_cap` profile (4 candidate
periods 18–24, 9 candidate shifts −0.06…−0.02) — not to the widest-ranged
profile of the configuration. -/
theorem C6_unmapped_gets_large_cap (ticker : String)
    (h : ASSET_CLASSES.lookup ticker = none) :
    assetClassOf ticker = "large_cap" ∧
    constraintsOfClass (assetClassOf ticker) = largeCapProfile := by
  have h1 : assetClassOf ticker = "large_cap" := by
    unfold assetClassOf
    rw [h]
    rfl
  refine ⟨h1, ?_⟩
  rw [h1]
  with_unfolding_all decide

/-- C6 (witness): the unmapped ticker "FOO" resolves to the `large_cap`
profile. -/
theorem C6_witness :
    ASSET_CLASSES.lookup "FOO" = none ∧
    assetClassOf "FOO" = "large_cap" ∧
    constraintsOfClass (assetClassOf "FOO") = largeCapProfile := by
  have h : ASSET_CLASSES.lookup "FOO" = none := by with_unfolding_all decide
  have h2 := C6_unmapped_gets_large_cap "FOO" h
  exact ⟨h, h2.1, h2.2⟩

/-- C10: a ticker absent from the persisted parameter record is scored with
default period 8 and shift 0 in `analyze_etf_risk`, `calculate_portfolio_series`
and `calculate_portfolio_risk` alike — each function behaves exactly as if the
record contained `{period: 8, shift: 0}` for that ticker — and this default
differs from the optimizer's fixed fallback `{period: 20, shift: -0.05}`. -/
theorem C10_risk_layer_defaults (fbis_params : String → Option ParamEntry)
    (ticker : String) (h : fbis_params ticker = none) :
    resolvedPeriod fbis_params ticker = 8 ∧
    resolvedShift fbis_params ticker = 0 ∧
    (∀ prices : List ℝ,
      analyze_etf_risk ticker prices fbis_params =
        analyze_etf_risk ticker prices (updateParams fbis_params ticker ⟨8, 0⟩)) ∧
    (∀ (dates : List ℤ) (columns : String → Option (List ℚ))
        (allocations : List (String × ℚ)),
      calculate_portfolio_series dates columns allocations fbis_params =
        calculate_portfolio_series dates columns allocations
          (updateParams fbis_params ticker ⟨8, 0⟩)) ∧
    (∀ (columns : String → Option (List ℚ)) (allocations : List (String × ℚ))
        (asset_classes : String → Option String) (portfolio_value : ℚ),
      calculate_portfolio_risk columns allocations asset_classes fbis_params
          portfolio_value =
        calculate_portfolio_risk columns allocations asset_classes
          (updateParams fbis_params ticker ⟨8, 0⟩) portfolio_value) ∧
    (⟨8, 0⟩ : ParamEntry) ≠ ⟨20, -5 / 100⟩ := by
  have hp := resolvedPeriod_update fbis_params ticker h
  have hs := resolvedShift_update fbis_params ticker h
  refine ⟨?_, ?_, ?_, ?_, ?_, ?_⟩
  · unfold resolvedPeriod
    rw [h]
  · unfold resolvedShift
    rw [h]
  · intro prices
    unfold analyze_etf_risk
    rw [hp, hs]
  · intro dates columns allocations
    unfold calculate_portfolio_series
    rw [portfolioSeriesStep_update columns fbis_params ticker h]
  · intro columns allocations asset_classes portfolio_value
    unfold calculate_portfolio_risk
    rw [portfolioRiskStep_update columns asset_classes fbis_params ticker portfolio_value h]
  · intro hcontra
    have := congrArg ParamEntry.period hcontra
    simp at this

/-- C10 (witness): with an empty parameter record, ticker "SPY" resolves to
period 8 and shift 0, and that default differs from the optimizer's. -/
theorem C10_witness :
    ((fun _ => none : String → Option ParamEntry) "SPY" = none) ∧
    resolvedPeriod (fun _ => none) "SPY" = 8 ∧
    resolvedShift (fun _ => none) "SPY" = 0 ∧
    (⟨8, 0⟩ : ParamEntry) ≠ ⟨20, -5 / 100⟩ := by
  have h := C10_risk_layer_defaults (fun _ => none) "SPY" rfl
  exact ⟨rfl, h.1, h.2.1, h.2.2.2.2.2⟩

/-- C2: whenever two distinct candidates of the asset-class grid both achieve
the maximal score, the candidate returned by `optimize` is itself maximal and
lexicographically (period, then shift) least among all maximal candidates —
the first candidate encountered in the ascending nested iteration wins the
tie. -/
theorem C2_tie_break (ticker : String) (close_series high_series low_series : Series)
    (hw : 10 ≤ (windowCloses close_series high_series low_series).length)
    (hbound : 3 * (windowCloses close_series high_series low_series).length < 999999)
    (c1 c2 : ℕ × ℚ) (hmem1 : c1 ∈ optGrid ticker) (hmem2 : c2 ∈ optGrid ticker)
    (hne12 : c1 ≠ c2)
    (hmax1 : ∀ c ∈ optGrid ticker,
      optCandScore close_series high_series low_series c ≤
        optCandScore close_series high_series low_series c1)
    (hmax2 : ∀ c ∈ optGrid ticker,
      optCandScore close_series high_series low_series c ≤
        optCandScore close_series high_series low_series c2) :
    ((optimize ticker close_series high_series low_series).period,
      (optimize ticker close_series high_series low_series).shift) ∈ optGrid ticker ∧
    (∀ c ∈ optGrid ticker,
      optCandScore close_series high_series low_series c ≤
        optCandScore close_series high_series low_series
          ((optimize ticker close_series high_series low_series).period,
            (optimize ticker close_series high_series low_series).shift)) ∧
    (∀ c ∈ optGrid ticker,
      (∀ d ∈ optGrid ticker,
        optCandScore close_series high_series low_series d ≤
          optCandScore close_series high_series low_series c) →
      lexLe ((optimize ticker close_series high_series low_series).period,
             (optimize ticker close_series high_series low_series).shift) c) := by
  have hgood := constraintsOfClass_good (assetClassOf ticker)
  have hpair : List.Pairwise lexLt (optGrid ticker) :=
    gridCandidates_pairwise _ hgood.1 hgood.2.1
  have hnil : optGrid ticker ≠ [] :=
    gridCandidates_ne_nil _ hgood.2.2.1 hgood.2.2.2
  have hgt : ∀ a ∈ optGrid ticker,
      (-999999 : ℚ) < optCandScore close_series high_series low_series a := by
    intro a _
    exact candScore_gt _ _ _ a hbound
  obtain ⟨l1, c0, l2, hsplit, heq, hmaxall, hfirst⟩ :=
    pickBest_from_none (optCandScore close_series high_series low_series)
      (-999999) (optGrid ticker) hnil hgt
  have hproj : (optimize ticker close_series high_series low_series).period = c0.1 ∧
      (optimize ticker close_series high_series low_series).shift = c0.2 := by
    simp only [optimize]
    rw [if_neg (by omega), heq]
    exact ⟨rfl, rfl⟩
  have hc0mem : c0 ∈ optGrid ticker := by
    rw [hsplit]
    exact List.mem_append_right _ (List.mem_cons_self _ _)
  have hpairc0 : ∀ x ∈ l2, lexLt c0 x := by
    rw [hsplit] at hpair
    exact (List.pairwise_cons.mp (List.pairwise_append.mp hpair).2.1).1
  rw [hproj.1, hproj.2, Prod.mk.eta]
  refine ⟨hc0mem, hmaxall, ?_⟩
  intro c hcmem hcmax
  have hlec : optCandScore close_series high_series low_series c0 ≤
      optCandScore close_series high_series low_series c := hcmax c0 hc0mem
  have hc_in : c ∈ l1 ++ c0 :: l2 := hsplit ▸ hcmem
  rcases List.mem_append.mp hc_in with h1 | h1
  · exact absurd hlec (not_le.mpr (hfirst c h1))
  · rcases List.mem_cons.mp h1 with h2 | h2
    · rw [h2]
      exact Or.inr ⟨rfl, le_refl _⟩
    · exact lexLe_of_lexLt c0 c (hpairc0 c h2)

/-- C2 (witness): on a 10-bar constant series every `bond_ig` candidate ties
with score 10; among the tied maximal candidates the optimizer's choice is
lexicographically least (in particular it precedes the tied candidate
`(16, -0.015)`). -/
theorem C2_witness :
    (10 ≤ (windowCloses tieSeries tieSeries tieSeries).length ∧
      3 * (windowCloses tieSeries tieSeries tieSeries).length < 999999 ∧
      ((16, -1 / 50) : ℕ × ℚ) ∈ optGrid "BIL" ∧
      ((16, -3 / 200) : ℕ × ℚ) ∈ optGrid "BIL" ∧
      ((16, -1 / 50) : ℕ × ℚ) ≠ (16, -3 / 200) ∧
      (∀ c ∈ optGrid "BIL", optCandScore tieSeries tieSeries tieSeries c ≤
        optCandScore tieSeries tieSeries tieSeries (16, -1 / 50)) ∧
      (∀ c ∈ optGrid "BIL", optCandScore tieSeries tieSeries tieSeries c ≤
        optCandScore tieSeries tieSeries tieSeries (16, -3 / 200))) ∧
    lexLe ((optimize "BIL" tieSeries tieSeries tieSeries).period,
           (optimize "BIL" tieSeries tieSeries tieSeries).shift) (16, -3 / 200) := by
  have h10 : 10 ≤ (windowCloses tieSeries tieSeries tieSeries).length := by
    with_unfolding_all decide
  have hb : 3 * (windowCloses tieSeries tieSeries tieSeries).length < 999999 := by
    with_unfolding_all decide
  have hm1 : ((16, -1 / 50) : ℕ × ℚ) ∈ optGrid "BIL" := by with_unfolding_all decide
  have hm2 : ((16, -3 / 200) : ℕ × ℚ) ∈ optGrid "BIL" := by with_unfolding_all decide
  have hne : ((16, -1 / 50) : ℕ × ℚ) ≠ (16, -3 / 200) := by with_unfolding_all decide
  have hx1 : ∀ c ∈ optGrid "BIL", optCandScore tieSeries tieSeries tieSeries c ≤
      optCandScore tieSeries tieSeries tieSeries (16, -1 / 50) := by
    with_unfolding_all decide
  have hx2 : ∀ c ∈ optGrid "BIL", optCandScore tieSeries tieSeries tieSeries c ≤
      optCandScore tieSeries tieSeries tieSeries (16, -3 / 200) := by
    with_unfolding_all decide
  have hmain := C2_tie_break "BIL" tieSeries tieSeries tieSeries h10 hb
    (16, -1 / 50) (16, -3 / 200) hm1 hm2 hne hx1 hx2
  exact ⟨⟨h10, hb, hm1, hm2, hne, hx1, hx2⟩, hmain.2.2 (16, -3 / 200) hm2 hx2⟩

end SATID
